import Mathlib

/-!
Verification of the GCS-to-S3 transfer functions
(`modules/shared-gcp-resources/function_source/` and
`modules/gcp-to-s3-pipeline/function_source/`).

Bytes are modelled as `Nat`, byte strings as `List Nat`.  The zlib
compressor object created by `zlib.compressobj(wbits=16+zlib.MAX_WBITS)` is an
external library; it is modelled as an abstract stateful `Compressor`
(a state type, an initial state, `compress` and `flush`), so that every
theorem about the wrapper's buffering logic holds for the real compressor as a
special case.  The wrapper, stream and orchestration logic themselves are
translated statement by statement from the Python source.

The `while` loops are written as structural recursion over an explicit
iteration bound; every loop iteration that continues consumes at least one
byte (or one network chunk) of the source, so the unread source length bounds
the number of iterations.  The callers pass exactly that bound, and the
`…_bound_irrel` lemmas prove the exhaustion arm is never taken for any
sufficient bound, so the functions compute the loop's exact semantics while
remaining kernel-reducible.
-/

/-- A byte string. -/
abbrev Bytes := List Nat

/-- Abstract model of `zlib.compressobj(...)`: a stateful streaming
compressor.  `compress` feeds one chunk and returns emitted output,
`flush` finalizes the stream (gzip trailer/checksum). -/
structure Compressor (σ : Type) where
  init : σ
  compress : σ → Bytes → σ × Bytes
  flush : σ → Bytes

/-- Model of the file-like object wrapped by `GzipStreamWrapper`
(`blob.open('rb')`): a byte sequence with a current position.
`read(n)` returns the next `min n remaining` bytes. -/
structure ByteSrc where
  data : Bytes
  pos : Nat
deriving DecidableEq

/-- The bytes `fileobj.read(n)` would return. -/
def ByteSrc.peek (s : ByteSrc) (n : Nat) : Bytes :=
  (s.data.drop s.pos).take n

/-- Position advance performed by `fileobj.read(n)` when it returned `k` bytes. -/
def ByteSrc.advance (s : ByteSrc) (k : Nat) : ByteSrc :=
  { s with pos := s.pos + k }

/-- Bytes not yet consumed from the source. -/
def ByteSrc.rest (s : ByteSrc) : Bytes :=
  s.data.drop s.pos

/-- Number of bytes not yet consumed from the source. -/
def ByteSrc.remaining (s : ByteSrc) : Nat :=
  s.data.length - s.pos

/-- Python slice `l[:n]`, including the negative-index semantics:
`l[:-k]` drops the last `k` elements (empty when `k ≥ len`). -/
def pySliceTo (n : Int) (l : Bytes) : Bytes :=
  if 0 ≤ n then l.take n.toNat else l.take (l.length - (-n).toNat)

/-- Python slice `l[n:]`, including the negative-index semantics:
`l[-k:]` keeps the last `k` elements. -/
def pySliceFrom (n : Int) (l : Bytes) : Bytes :=
  if 0 ≤ n then l.drop n.toNat else l.drop (l.length - (-n).toNat)

/-- State of `shared.GzipStreamWrapper` (fields `fileobj`, `chunk_size`,
`compressor`, `buffer`, `finished`, `bytes_written`).  The
`gcp-to-s3-pipeline` variant of the class is identical except that it has no
`bytes_written` field; its `read` returns the same byte strings. -/
structure GzipStreamWrapper (σ : Type) where
  fileobj : ByteSrc
  chunk_size : Nat
  comp : σ
  buffer : Bytes
  finished : Bool
  bytes_written : Nat

/-- `GzipStreamWrapper.__init__(fileobj, chunk_size=65536)`. -/
def GzipStreamWrapper.mk0 {σ} (c : Compressor σ) (data : Bytes) (chunkSize : Nat) :
    GzipStreamWrapper σ :=
  { fileobj := { data := data, pos := 0 }
    chunk_size := chunkSize
    comp := c.init
    buffer := []
    finished := false
    bytes_written := 0 }

/-- Loop-body state after `chunk = self.fileobj.read(self.chunk_size)` came
back empty: `self.buffer += self.compressor.flush(); self.finished = True`. -/
def GzipStreamWrapper.flushedState {σ} (c : Compressor σ) (st : GzipStreamWrapper σ) :
    GzipStreamWrapper σ :=
  { st with fileobj := st.fileobj.advance (st.fileobj.peek st.chunk_size).length,
            buffer := st.buffer ++ c.flush st.comp, finished := true }

/-- Loop-body state after a non-empty chunk was read and fed through the
compressor: `self.buffer += self.compressor.compress(chunk)`. -/
def GzipStreamWrapper.steppedState {σ} (c : Compressor σ) (st : GzipStreamWrapper σ) :
    GzipStreamWrapper σ :=
  { st with fileobj := st.fileobj.advance (st.fileobj.peek st.chunk_size).length,
            comp := (c.compress st.comp (st.fileobj.peek st.chunk_size)).1,
            buffer := st.buffer ++ (c.compress st.comp (st.fileobj.peek st.chunk_size)).2 }

/-- The `while` loop of `GzipStreamWrapper.read`:
`while len(self.buffer) < size or size == -1:` with its three exits
(`finished`, source exhausted → `flush`, enough buffered data after the
`size != -1 and len(self.buffer) >= size` break).
`bound` only limits the iteration count; a continuing iteration consumes at
least one source byte, so any `bound ≥` the unread source length gives the
loop's exact result (`GzipStreamWrapper.readLoop_bound_irrel`). -/
def GzipStreamWrapper.readLoop {σ} (c : Compressor σ) (size : Int) :
    Nat → GzipStreamWrapper σ → GzipStreamWrapper σ
  | bound, st =>
    if (st.buffer.length : Int) < size ∨ size = -1 then
      if st.finished then st
      else if st.fileobj.peek st.chunk_size = [] then GzipStreamWrapper.flushedState c st
      else if size ≠ -1 ∧ size ≤ (((GzipStreamWrapper.steppedState c st).buffer).length : Int) then
        GzipStreamWrapper.steppedState c st
      else
        match bound with
        | 0 => GzipStreamWrapper.steppedState c st
        | bound' + 1 => GzipStreamWrapper.readLoop c size bound' (GzipStreamWrapper.steppedState c st)
    else st

/-- The `# Return requested amount of data` block at the end of
`GzipStreamWrapper.read`: slice off and return the requested amount of the
buffer, retaining the remainder, and add the returned length to
`bytes_written`. -/
def GzipStreamWrapper.sliceOut {σ} (size : Int) (st1 : GzipStreamWrapper σ) :
    Bytes × GzipStreamWrapper σ :=
  if size = -1 then
    (st1.buffer,
      { st1 with buffer := [], bytes_written := st1.bytes_written + st1.buffer.length })
  else
    (pySliceTo size st1.buffer,
      { st1 with buffer := pySliceFrom size st1.buffer,
                 bytes_written := st1.bytes_written + (pySliceTo size st1.buffer).length })

/-- `GzipStreamWrapper.read(size=-1)`: run the loop, then return the
requested slice of the buffer. -/
def GzipStreamWrapper.read {σ} (c : Compressor σ) (size : Int)
    (st : GzipStreamWrapper σ) : Bytes × GzipStreamWrapper σ :=
  GzipStreamWrapper.sliceOut size (GzipStreamWrapper.readLoop c size st.fileobj.remaining st)

/-- Iteration core of `chunksOf`; `bound ≥ l.length` gives the exact value. -/
def chunksOfGo (n : Nat) : Nat → Bytes → List Bytes
  | _, [] => []
  | 0, _ :: _ => []
  | bound + 1, a :: l =>
    if n = 0 then [] else (a :: l).take n :: chunksOfGo n bound ((a :: l).drop n)

/-- Split a byte string into the successive chunks `fileobj.read(n)` yields
(each of length `n`, the last one possibly shorter). -/
def chunksOf (n : Nat) (l : Bytes) : List Bytes := chunksOfGo n l.length l

/-- Reference compressed stream: feed the chunks through the compressor in
order starting from state `s`, then flush. -/
def compressChunks {σ} (c : Compressor σ) (s : σ) : List Bytes → Bytes
  | [] => c.flush s
  | ch :: rest => (c.compress s ch).2 ++ compressChunks c (c.compress s ch).1 rest

/-- The compressed bytes a wrapper state has yet to emit: its buffered bytes
followed by the compression of the unread part of the source (nothing more
once `finished`). -/
def streamRest {σ} (c : Compressor σ) (st : GzipStreamWrapper σ) : Bytes :=
  st.buffer ++
    if st.finished then [] else compressChunks c st.comp (chunksOf st.chunk_size st.fileobj.rest)

/-- Total length of a list of byte strings. -/
def sumLens (ls : List Bytes) : Nat := (ls.map List.length).sum

/-- Perform a sequence of `read` calls with the given size arguments,
collecting the returned byte strings. -/
def gzRunReads {σ} (c : Compressor σ) : List Int → GzipStreamWrapper σ →
    List Bytes × GzipStreamWrapper σ
  | [], st => ([], st)
  | s :: rest, st =>
    let r := GzipStreamWrapper.read c s st
    let rr := gzRunReads c rest r.2
    (r.1 :: rr.1, rr.2)

/-- Repeatedly `read(size)` until an empty result, collecting the non-empty
results (the caller protocol of `upload_fileobj`). -/
def drainReads {σ} (c : Compressor σ) (size : Int) : Nat → GzipStreamWrapper σ → List Bytes
  | 0, _ => []
  | fuel + 1, st =>
    let r := GzipStreamWrapper.read c size st
    if r.1 = [] then [] else r.1 :: drainReads c size fuel r.2

/-- A concrete instance of the abstract compressor interface, used to
evaluate the wrapper on concrete inputs: it passes chunks through verbatim
and emits a one-byte trailer on flush; its decoder drops that trailer. -/
def toyComp : Compressor Unit :=
  { init := ()
    compress := fun s ch => (s, ch)
    flush := fun _ => [0] }

/-- Decoder matching `toyComp`. -/
def toyDecode (l : Bytes) : Bytes := l.dropLast

example : (GzipStreamWrapper.read toyComp (-1) (GzipStreamWrapper.mk0 toyComp [1, 2, 3] 2)).1
    = [1, 2, 3, 0] := by decide

example : streamRest toyComp (GzipStreamWrapper.mk0 toyComp [1, 2, 3, 4, 5] 2)
    = [1, 2, 3, 4, 5, 0] := by decide

example : (GzipStreamWrapper.read toyComp (-2) (GzipStreamWrapper.mk0 toyComp [7, 7, 7] 2)).1
    = [] := by decide

example : (gzRunReads toyComp [0, -1, -1, -1] (GzipStreamWrapper.mk0 toyComp [5] 4)).1
    = [[], [5, 0], [], []] := by decide

example : drainReads toyComp 3 10 (GzipStreamWrapper.mk0 toyComp [1, 2, 3, 4, 5] 2)
    = [[1, 2, 3], [4, 5, 0]] := by decide

/-! ### Basic facts about sources and chunking -/

theorem ByteSrc.rest_advance (s : ByteSrc) (k : Nat) :
    (s.advance k).rest = s.rest.drop k := by
  simp [ByteSrc.rest, ByteSrc.advance, List.drop_drop, Nat.add_comm]

theorem ByteSrc.peek_eq (s : ByteSrc) (n : Nat) : s.peek n = s.rest.take n := rfl

theorem ByteSrc.remaining_advance (s : ByteSrc) (k : Nat) :
    (s.advance k).remaining = s.remaining - k := by
  simp [ByteSrc.remaining, ByteSrc.advance]
  omega

theorem ByteSrc.length_rest (s : ByteSrc) : s.rest.length = s.remaining := by
  simp [ByteSrc.rest, ByteSrc.remaining]

theorem drop_length_take (l : Bytes) (n : Nat) :
    l.drop ((l.take n).length) = l.drop n := by
  rw [List.length_take]
  rcases Nat.le_total n l.length with h | h
  · rw [Nat.min_eq_left h]
  · rw [Nat.min_eq_right h, List.drop_eq_nil_of_le h, List.drop_eq_nil_of_le (le_refl _)]

theorem chunksOfGo_nil (n b : Nat) : chunksOfGo n b [] = [] := by cases b <;> rfl

theorem chunksOfGo_irrel (n : Nat) :
    ∀ b b' (l : Bytes), l.length ≤ b → l.length ≤ b' →
      chunksOfGo n b l = chunksOfGo n b' l := by
  intro b
  induction b using Nat.strong_induction_on with
  | _ b ih =>
    intro b' l hb hb'
    cases l with
    | nil => rw [chunksOfGo_nil, chunksOfGo_nil]
    | cons a l =>
      cases b with
      | zero => simp at hb
      | succ b =>
        cases b' with
        | zero => simp at hb'
        | succ b' =>
          simp only [chunksOfGo]
          by_cases hn : n = 0
          · simp [hn]
          · simp only [hn, if_false]
            congr 1
            have hpos : 0 < n := Nat.pos_of_ne_zero hn
            have hlen : ((a :: l).drop n).length = l.length + 1 - n := by
              simp [List.length_drop]
            simp only [List.length_cons] at hb hb'
            exact (ih b (by omega) _ _ (by omega) (le_refl _)).trans
              (ih ((a :: l).drop n).length (by omega) _ _ (le_refl _) (by omega))

theorem chunksOf_eq_nil {n : Nat} {l : Bytes} (h : n = 0 ∨ l = []) : chunksOf n l = [] := by
  rcases h with h | h
  · cases l <;> simp [chunksOf, chunksOfGo, h]
  · simp [chunksOf, chunksOfGo, h]

theorem chunksOf_cons {n : Nat} {l : Bytes} (hn : n ≠ 0) (hl : l ≠ []) :
    chunksOf n l = l.take n :: chunksOf n (l.drop n) := by
  match l with
  | [] => exact absurd rfl hl
  | a :: l =>
    show chunksOfGo n (l.length + 1) (a :: l) = _
    simp only [chunksOfGo, hn, if_false]
    congr 1
    exact chunksOfGo_irrel n l.length ((a :: l).drop n).length ((a :: l).drop n)
      (by simp [List.length_drop]; omega) (le_refl _)

theorem chunksOf_flatten {n : Nat} (hn : 1 ≤ n) (l : Bytes) :
    (chunksOf n l).flatten = l := by
  suffices H : ∀ k (l : Bytes), l.length ≤ k → (chunksOf n l).flatten = l from
    H l.length l (le_refl _)
  intro k
  induction k with
  | zero =>
    intro l h
    have : l = [] := List.eq_nil_of_length_eq_zero (by omega)
    simp [this, chunksOf_eq_nil (Or.inr rfl)]
  | succ k ih =>
    intro l h
    by_cases hl : l = []
    · simp [hl, chunksOf_eq_nil (Or.inr rfl)]
    · rw [chunksOf_cons (by omega) hl, List.flatten_cons,
        ih (l.drop n) (by
          have : 0 < l.length := List.length_pos.mpr hl
          simp only [List.length_drop]
          omega),
        List.take_append_drop]

/-! ### The read loop preserves the remaining compressed stream -/

/-- When the source yields an empty chunk the loop flushes; the pending
stream is unchanged. -/
theorem streamRest_flush_step {σ} (c : Compressor σ) (st : GzipStreamWrapper σ)
    (hfin : st.finished = false) (hc : st.fileobj.peek st.chunk_size = []) :
    streamRest c (GzipStreamWrapper.flushedState c st) = streamRest c st := by
  rw [GzipStreamWrapper.flushedState]
  have h0 : chunksOf st.chunk_size st.fileobj.rest = [] :=
    chunksOf_eq_nil (List.take_eq_nil_iff.mp (by rw [← ByteSrc.peek_eq]; exact hc))
  simp [streamRest, hfin, h0, compressChunks]

/-- Feeding one non-empty chunk to the compressor leaves the pending
stream unchanged. -/
theorem streamRest_compress_step {σ} (c : Compressor σ) (st : GzipStreamWrapper σ)
    (hfin : st.finished = false) (hc : st.fileobj.peek st.chunk_size ≠ []) :
    streamRest c (GzipStreamWrapper.steppedState c st) = streamRest c st := by
  have hn : st.chunk_size ≠ 0 := fun h0 => hc (by simp [ByteSrc.peek_eq, h0])
  have hr : st.fileobj.rest ≠ [] := fun h0 => hc (by simp [ByteSrc.peek_eq, h0])
  rw [GzipStreamWrapper.steppedState]
  simp only [streamRest, hfin]
  rw [ByteSrc.rest_advance, ByteSrc.peek_eq, drop_length_take,
    chunksOf_cons hn hr, compressChunks]
  simp [ByteSrc.peek_eq]

theorem GzipStreamWrapper.readLoop_streamRest {σ} (c : Compressor σ) (size : Int) :
    ∀ (b : Nat) (st : GzipStreamWrapper σ),
      streamRest c (GzipStreamWrapper.readLoop c size b st) = streamRest c st := by
  intro b
  induction b with
  | zero =>
    intro st
    rw [GzipStreamWrapper.readLoop.eq_1]
    split
    · split
      · rfl
      · next hfin =>
        split
        · next hc => exact streamRest_flush_step c st (by simpa using hfin) hc
        · next hc =>
          split
          · exact streamRest_compress_step c st (by simpa using hfin) hc
          · exact streamRest_compress_step c st (by simpa using hfin) hc
    · rfl
  | succ b ih =>
    intro st
    rw [GzipStreamWrapper.readLoop.eq_2]
    split
    · split
      · rfl
      · next hfin =>
        split
        · next hc => exact streamRest_flush_step c st (by simpa using hfin) hc
        · next hc =>
          split
          · exact streamRest_compress_step c st (by simpa using hfin) hc
          · exact (ih _).trans (streamRest_compress_step c st (by simpa using hfin) hc)
    · rfl

/-- The iteration bound is irrelevant as soon as it covers the unread source
length: the exhaustion arm of `readLoop` is never taken, because an iteration
that continues has consumed at least one source byte. -/
theorem GzipStreamWrapper.readLoop_bound_irrel {σ} (c : Compressor σ) (size : Int) :
    ∀ b b' (st : GzipStreamWrapper σ),
      st.fileobj.remaining ≤ b → st.fileobj.remaining ≤ b' →
      GzipStreamWrapper.readLoop c size b st = GzipStreamWrapper.readLoop c size b' st := by
  intro b
  induction b using Nat.strong_induction_on with
  | _ b ih =>
    intro b' st hb hb'
    have hzero : ∀ m, st.fileobj.remaining = 0 →
        GzipStreamWrapper.readLoop c size m st
          = if (st.buffer.length : Int) < size ∨ size = -1 then
              if st.finished then st else GzipStreamWrapper.flushedState c st
            else st := by
      intro m h0
      have hrest : st.fileobj.rest = [] :=
        List.eq_nil_of_length_eq_zero (by rw [ByteSrc.length_rest]; omega)
      have hpk : st.fileobj.peek st.chunk_size = [] := by
        simp [ByteSrc.peek_eq, hrest]
      cases m with
      | zero => rw [GzipStreamWrapper.readLoop.eq_1]; simp [hpk]
      | succ m => rw [GzipStreamWrapper.readLoop.eq_2]; simp [hpk]
    cases b with
    | zero =>
      rw [hzero 0 (by omega), hzero b' (by omega)]
    | succ b0 =>
      cases b' with
      | zero =>
        rw [hzero (b0 + 1) (by omega), hzero 0 (by omega)]
      | succ b0' =>
        rw [GzipStreamWrapper.readLoop.eq_2, GzipStreamWrapper.readLoop.eq_2]
        by_cases hg : ((st.buffer.length : Int) < size ∨ size = -1)
        · rw [if_pos hg, if_pos hg]
          by_cases hfin : st.finished = true
          · rw [if_pos hfin, if_pos hfin]
          · rw [if_neg hfin, if_neg hfin]
            by_cases hpk : st.fileobj.peek st.chunk_size = []
            · rw [if_pos hpk, if_pos hpk]
            · rw [if_neg hpk, if_neg hpk]
              by_cases hbrk : (size ≠ -1 ∧
                  size ≤ (((GzipStreamWrapper.steppedState c st).buffer).length : Int))
              · rw [if_pos hbrk, if_pos hbrk]
              · rw [if_neg hbrk, if_neg hbrk]
                have h1 : 1 ≤ (st.fileobj.peek st.chunk_size).length :=
                  List.length_pos.mpr hpk
                have h2 : (st.fileobj.peek st.chunk_size).length ≤ st.fileobj.remaining := by
                  rw [← ByteSrc.length_rest, ByteSrc.peek_eq, List.length_take]
                  omega
                have hrem : (GzipStreamWrapper.steppedState c st).fileobj.remaining
                    = st.fileobj.remaining - (st.fileobj.peek st.chunk_size).length := by
                  simp [GzipStreamWrapper.steppedState, ByteSrc.remaining_advance]
                exact ih b0 (by omega) b0' _ (by omega) (by omega)
        · rw [if_neg hg, if_neg hg]

/-- The loop never touches `bytes_written`. -/
theorem GzipStreamWrapper.readLoop_bytes_written {σ} (c : Compressor σ) (size : Int) :
    ∀ b (st : GzipStreamWrapper σ),
      (GzipStreamWrapper.readLoop c size b st).bytes_written = st.bytes_written := by
  intro b
  induction b with
  | zero =>
    intro st
    rw [GzipStreamWrapper.readLoop.eq_1]
    split
    · split
      · rfl
      · split
        · simp [GzipStreamWrapper.flushedState]
        · split <;> simp [GzipStreamWrapper.steppedState]
    · rfl
  | succ b ih =>
    intro st
    rw [GzipStreamWrapper.readLoop.eq_2]
    split
    · split
      · rfl
      · split
        · simp [GzipStreamWrapper.flushedState]
        · split
          · simp [GzipStreamWrapper.steppedState]
          · rw [ih]; simp [GzipStreamWrapper.steppedState]
    · rfl

/-- With a sufficient bound and `size ≠ -1`, the loop stops only once
finished or holding at least `size` buffered bytes. -/
theorem GzipStreamWrapper.readLoop_exit {σ} (c : Compressor σ) (size : Int) :
    ∀ b (st : GzipStreamWrapper σ), st.fileobj.remaining ≤ b →
      (GzipStreamWrapper.readLoop c size b st).finished = true
      ∨ size ≤ ((GzipStreamWrapper.readLoop c size b st).buffer.length : Int) := by
  intro b
  induction b with
  | zero =>
    intro st hb
    have hrest : st.fileobj.rest = [] :=
      List.eq_nil_of_length_eq_zero (by rw [ByteSrc.length_rest]; omega)
    have hpk : st.fileobj.peek st.chunk_size = [] := by simp [ByteSrc.peek_eq, hrest]
    rw [GzipStreamWrapper.readLoop.eq_1]
    by_cases hg : ((st.buffer.length : Int) < size ∨ size = -1)
    · rw [if_pos hg]
      by_cases hfin : st.finished = true
      · rw [if_pos hfin]; exact Or.inl hfin
      · rw [if_neg hfin, if_pos hpk]
        exact Or.inl (by simp [GzipStreamWrapper.flushedState])
    · rw [if_neg hg]
      right
      rcases not_or.mp hg with ⟨h1, _⟩
      omega
  | succ b ih =>
    intro st hb
    rw [GzipStreamWrapper.readLoop.eq_2]
    by_cases hg : ((st.buffer.length : Int) < size ∨ size = -1)
    · rw [if_pos hg]
      by_cases hfin : st.finished = true
      · rw [if_pos hfin]; exact Or.inl hfin
      · rw [if_neg hfin]
        by_cases hpk : st.fileobj.peek st.chunk_size = []
        · rw [if_pos hpk]
          exact Or.inl (by simp [GzipStreamWrapper.flushedState])
        · rw [if_neg hpk]
          by_cases hbrk : (size ≠ -1 ∧
              size ≤ (((GzipStreamWrapper.steppedState c st).buffer).length : Int))
          · rw [if_pos hbrk]; exact Or.inr hbrk.2
          · rw [if_neg hbrk]
            have h1 : 1 ≤ (st.fileobj.peek st.chunk_size).length := List.length_pos.mpr hpk
            have h2 : (st.fileobj.peek st.chunk_size).length ≤ st.fileobj.remaining := by
              rw [← ByteSrc.length_rest, ByteSrc.peek_eq, List.length_take]
              omega
            have hrem : (GzipStreamWrapper.steppedState c st).fileobj.remaining
                = st.fileobj.remaining - (st.fileobj.peek st.chunk_size).length := by
              simp [GzipStreamWrapper.steppedState, ByteSrc.remaining_advance]
            exact ih _ (by omega)
    · rw [if_neg hg]
      right
      rcases not_or.mp hg with ⟨h1, _⟩
      omega

/-- With `size = -1` and a sufficient bound the loop always runs to the
flush: the resulting state is finished. -/
theorem GzipStreamWrapper.readLoop_neg1_finished {σ} (c : Compressor σ) :
    ∀ b (st : GzipStreamWrapper σ), st.fileobj.remaining ≤ b →
      (GzipStreamWrapper.readLoop c (-1) b st).finished = true := by
  intro b
  induction b with
  | zero =>
    intro st hb
    have hrest : st.fileobj.rest = [] :=
      List.eq_nil_of_length_eq_zero (by rw [ByteSrc.length_rest]; omega)
    have hpk : st.fileobj.peek st.chunk_size = [] := by simp [ByteSrc.peek_eq, hrest]
    rw [GzipStreamWrapper.readLoop.eq_1, if_pos (Or.inr rfl)]
    by_cases hfin : st.finished = true
    · rw [if_pos hfin]; exact hfin
    · rw [if_neg hfin, if_pos hpk]
      simp [GzipStreamWrapper.flushedState]
  | succ b ih =>
    intro st hb
    rw [GzipStreamWrapper.readLoop.eq_2, if_pos (Or.inr rfl)]
    by_cases hfin : st.finished = true
    · rw [if_pos hfin]; exact hfin
    · rw [if_neg hfin]
      by_cases hpk : st.fileobj.peek st.chunk_size = []
      · rw [if_pos hpk]
        simp [GzipStreamWrapper.flushedState]
      · rw [if_neg hpk, if_neg (by simp)]
        have h1 : 1 ≤ (st.fileobj.peek st.chunk_size).length := List.length_pos.mpr hpk
        have h2 : (st.fileobj.peek st.chunk_size).length ≤ st.fileobj.remaining := by
          rw [← ByteSrc.length_rest, ByteSrc.peek_eq, List.length_take]
          omega
        have hrem : (GzipStreamWrapper.steppedState c st).fileobj.remaining
            = st.fileobj.remaining - (st.fileobj.peek st.chunk_size).length := by
          simp [GzipStreamWrapper.steppedState, ByteSrc.remaining_advance]
        exact ih _ (by omega)

/-! ### Facts about a single `read` call -/

/-- A fresh wrapper's pending stream is the full compressed stream of its
source. -/
theorem streamRest_mk0 {σ} (c : Compressor σ) (data : Bytes) (cs : Nat) :
    streamRest c (GzipStreamWrapper.mk0 c data cs)
      = compressChunks c c.init (chunksOf cs data) := by
  simp [streamRest, GzipStreamWrapper.mk0, ByteSrc.rest]

/-- `read(-1)` returns the whole pending stream and leaves nothing pending. -/
theorem GzipStreamWrapper.read_neg1 {σ} (c : Compressor σ) (st : GzipStreamWrapper σ) :
    (GzipStreamWrapper.read c (-1) st).1 = streamRest c st
    ∧ streamRest c (GzipStreamWrapper.read c (-1) st).2 = [] := by
  have hfin := GzipStreamWrapper.readLoop_neg1_finished c st.fileobj.remaining st (le_refl _)
  have hsr := GzipStreamWrapper.readLoop_streamRest c (-1) st.fileobj.remaining st
  constructor
  · rw [← hsr]
    simp [GzipStreamWrapper.read, GzipStreamWrapper.sliceOut, streamRest, hfin]
  · simp [GzipStreamWrapper.read, GzipStreamWrapper.sliceOut, streamRest, hfin]

/-- For a non-negative size, a `read` call splits the pending stream: the
returned bytes followed by the new pending stream are the old pending
stream. -/
theorem GzipStreamWrapper.read_decomp {σ} (c : Compressor σ) {size : Int} (h : 0 ≤ size)
    (st : GzipStreamWrapper σ) :
    (GzipStreamWrapper.read c size st).1 ++ streamRest c (GzipStreamWrapper.read c size st).2
      = streamRest c st := by
  have hsr := GzipStreamWrapper.readLoop_streamRest c size st.fileobj.remaining st
  have hne : ¬size = -1 := by omega
  rw [← hsr]
  simp only [GzipStreamWrapper.read, GzipStreamWrapper.sliceOut, if_neg hne]
  simp only [streamRest]
  rw [pySliceTo, pySliceFrom, if_pos h, if_pos h, ← List.append_assoc,
    List.take_append_drop]

/-- For a non-negative size, `read` returns at most `size` bytes. -/
theorem GzipStreamWrapper.read_length_le {σ} (c : Compressor σ) {size : Int} (h : 0 ≤ size)
    (st : GzipStreamWrapper σ) :
    ((GzipStreamWrapper.read c size st).1.length : Int) ≤ size := by
  have hne : ¬size = -1 := by omega
  simp only [GzipStreamWrapper.read, GzipStreamWrapper.sliceOut, if_neg hne]
  rw [pySliceTo, if_pos h, List.length_take]
  have hmin := Nat.min_le_left size.toNat
    ((GzipStreamWrapper.readLoop c size st.fileobj.remaining st).buffer.length)
  have ht : (size.toNat : Int) = size := Int.toNat_of_nonneg h
  omega

/-- For a positive size, `read` returns the empty byte string exactly when
the pending stream is empty. -/
theorem GzipStreamWrapper.read_empty_iff {σ} (c : Compressor σ) {size : Int} (h : 1 ≤ size)
    (st : GzipStreamWrapper σ) :
    ((GzipStreamWrapper.read c size st).1 = [] ↔ streamRest c st = []) := by
  have hne : ¬size = -1 := by omega
  have hsr := GzipStreamWrapper.readLoop_streamRest c size st.fileobj.remaining st
  have hexit := GzipStreamWrapper.readLoop_exit c size st.fileobj.remaining st (le_refl _)
  simp only [GzipStreamWrapper.read, GzipStreamWrapper.sliceOut, if_neg hne]
  rw [pySliceTo, if_pos (by omega : (0 : Int) ≤ size)]
  constructor
  · intro hout
    rcases List.take_eq_nil_iff.mp hout with h0 | h0
    · exfalso
      have ht : (size.toNat : Int) = size := Int.toNat_of_nonneg (by omega)
      omega
    · rcases hexit with hf | hlen
      · rw [← hsr]
        simp [streamRest, hf, h0]
      · exfalso
        rw [h0] at hlen
        simp at hlen
        omega
  · intro hrest
    rw [← hsr] at hrest
    have hbuf : (GzipStreamWrapper.readLoop c size st.fileobj.remaining st).buffer = [] := by
      simp only [streamRest] at hrest
      exact (List.append_eq_nil.mp hrest).1
    rw [hbuf, List.take_nil]

/-- `bytes_written` grows by exactly the number of bytes each `read`
returns. -/
theorem GzipStreamWrapper.read_bytes_written {σ} (c : Compressor σ) (size : Int)
    (st : GzipStreamWrapper σ) :
    (GzipStreamWrapper.read c size st).2.bytes_written
      = st.bytes_written + (GzipStreamWrapper.read c size st).1.length := by
  have hbw := GzipStreamWrapper.readLoop_bytes_written c size st.fileobj.remaining st
  by_cases hne : size = -1
  · subst hne
    simp [GzipStreamWrapper.read, GzipStreamWrapper.sliceOut, hbw]
  · simp [GzipStreamWrapper.read, GzipStreamWrapper.sliceOut, if_neg hne, hbw]

/-- Over any sequence of `read` calls, `bytes_written` accumulates the total
length of the returned byte strings. -/
theorem gzRunReads_bytes_written {σ} (c : Compressor σ) :
    ∀ (sizes : List Int) (st : GzipStreamWrapper σ),
      (gzRunReads c sizes st).2.bytes_written
        = st.bytes_written + sumLens (gzRunReads c sizes st).1 := by
  intro sizes
  induction sizes with
  | nil => intro st; simp [gzRunReads, sumLens]
  | cons s rest ih =>
    intro st
    simp only [gzRunReads]
    rw [ih, GzipStreamWrapper.read_bytes_written]
    simp [sumLens]
    omega

/-- Reading with any fixed positive size until exhaustion reproduces the
whole pending stream. -/
theorem drainReads_flatten {σ} (c : Compressor σ) {size : Int} (hsz : 1 ≤ size) :
    ∀ (fuel : Nat) (st : GzipStreamWrapper σ), (streamRest c st).length ≤ fuel →
      (drainReads c size fuel st).flatten = streamRest c st := by
  intro fuel
  induction fuel with
  | zero =>
    intro st h
    have h0 : streamRest c st = [] := List.eq_nil_of_length_eq_zero (by omega)
    simp [drainReads, h0]
  | succ fuel ih =>
    intro st h
    by_cases hout : (GzipStreamWrapper.read c size st).1 = []
    · simp [drainReads, hout, (GzipStreamWrapper.read_empty_iff c hsz st).mp hout]
    · have hdec := GzipStreamWrapper.read_decomp c (by omega : (0 : Int) ≤ size) st
      have h1 : 1 ≤ (GzipStreamWrapper.read c size st).1.length := List.length_pos.mpr hout
      have hlen : (streamRest c (GzipStreamWrapper.read c size st).2).length ≤ fuel := by
        have h2 : (GzipStreamWrapper.read c size st).1.length
            + (streamRest c (GzipStreamWrapper.read c size st).2).length
            = (streamRest c st).length := by
          rw [← hdec, List.length_append]
        omega
      simp only [drainReads, if_neg hout]
      rw [List.flatten_cons, ih _ hlen, hdec]

/-! ### Concrete compressor instance lemmas -/

theorem toyComp_compressChunks (s : Unit) (chs : List Bytes) :
    compressChunks toyComp s chs = chs.flatten ++ [0] := by
  induction chs with
  | nil => rfl
  | cons ch rest ih =>
    rw [compressChunks]
    show ch ++ compressChunks toyComp s rest = (ch :: rest).flatten ++ [0]
    rw [ih, List.flatten_cons, List.append_assoc]

theorem toyComp_roundtrip (chs : List Bytes) :
    toyDecode (compressChunks toyComp toyComp.init chs) = chs.flatten := by
  simp [toyDecode, toyComp_compressChunks, List.dropLast_concat]

/-! ### Claims about the Compressing Stream Adapter -/

/-- C3: for every byte sequence `B`, every compressor, and every fixed
positive requested size `C`, reading the adapter repeatedly with `read(C)`
until it returns empty and concatenating the results yields output
byte-identical to a single `read(-1)` on a fresh adapter over the same `B`
(the compression state is threaded through, never reset). -/
theorem C3_chunk_invariance {σ} (c : Compressor σ) (B : Bytes) (cs : Nat) (C : Int)
    (fuel : Nat) (hC : 1 ≤ C)
    (hfuel : (streamRest c (GzipStreamWrapper.mk0 c B cs)).length ≤ fuel) :
    (drainReads c C fuel (GzipStreamWrapper.mk0 c B cs)).flatten
      = (GzipStreamWrapper.read c (-1) (GzipStreamWrapper.mk0 c B cs)).1 := by
  rw [drainReads_flatten c hC fuel _ hfuel, (GzipStreamWrapper.read_neg1 c _).1]

theorem C3_chunk_invariance_witness :
    (1 : Int) ≤ 3
    ∧ (streamRest toyComp (GzipStreamWrapper.mk0 toyComp [1, 2, 3, 4, 5] 2)).length ≤ 6
    ∧ (drainReads toyComp 3 6 (GzipStreamWrapper.mk0 toyComp [1, 2, 3, 4, 5] 2)).flatten
        = (GzipStreamWrapper.read toyComp (-1)
            (GzipStreamWrapper.mk0 toyComp [1, 2, 3, 4, 5] 2)).1 :=
  ⟨by decide, by decide,
    C3_chunk_invariance toyComp [1, 2, 3, 4, 5] 2 3 6 (by decide) (by decide)⟩

/-- C4: for every byte sequence `B` (including `[]`), any correct streaming
compressor/decoder pair, and any positive source chunk size, a single
`read(-1)` on a fresh adapter yields output that decodes exactly to `B`;
for empty `B` the adapter still emits the compressor's (non-empty, for gzip)
header+trailer flush, which decodes to the empty sequence. -/
theorem C4_roundtrip {σ} (c : Compressor σ) (decode : Bytes → Bytes) (B : Bytes) (cs : Nat)
    (hrt : ∀ chs : List Bytes, decode (compressChunks c c.init chs) = chs.flatten)
    (hcs : 1 ≤ cs) (hflush : c.flush c.init ≠ []) :
    decode ((GzipStreamWrapper.read c (-1) (GzipStreamWrapper.mk0 c B cs)).1) = B
    ∧ (GzipStreamWrapper.read c (-1) (GzipStreamWrapper.mk0 c [] cs)).1 = c.flush c.init
    ∧ (GzipStreamWrapper.read c (-1) (GzipStreamWrapper.mk0 c [] cs)).1 ≠ []
    ∧ decode ((GzipStreamWrapper.read c (-1) (GzipStreamWrapper.mk0 c [] cs)).1) = [] := by
  have h1 : (GzipStreamWrapper.read c (-1) (GzipStreamWrapper.mk0 c B cs)).1
      = compressChunks c c.init (chunksOf cs B) := by
    rw [(GzipStreamWrapper.read_neg1 c _).1, streamRest_mk0]
  have h2 : (GzipStreamWrapper.read c (-1) (GzipStreamWrapper.mk0 c [] cs)).1
      = c.flush c.init := by
    rw [(GzipStreamWrapper.read_neg1 c _).1, streamRest_mk0, chunksOf_eq_nil (Or.inr rfl),
      compressChunks]
  refine ⟨?_, h2, ?_, ?_⟩
  · rw [h1, hrt, chunksOf_flatten hcs]
  · rw [h2]; exact hflush
  · rw [h2]
    simpa [compressChunks] using hrt []

theorem C4_roundtrip_witness :
    toyDecode ((GzipStreamWrapper.read toyComp (-1)
        (GzipStreamWrapper.mk0 toyComp [3, 1, 4, 1, 5] 2)).1) = [3, 1, 4, 1, 5]
    ∧ (GzipStreamWrapper.read toyComp (-1) (GzipStreamWrapper.mk0 toyComp [] 2)).1
        = toyComp.flush toyComp.init
    ∧ (GzipStreamWrapper.read toyComp (-1) (GzipStreamWrapper.mk0 toyComp [] 2)).1 ≠ []
    ∧ toyDecode ((GzipStreamWrapper.read toyComp (-1)
        (GzipStreamWrapper.mk0 toyComp [] 2)).1) = [] :=
  C4_roundtrip toyComp toyDecode [3, 1, 4, 1, 5] 2 toyComp_roundtrip (by decide) (by decide)

/-- C5 counterexample: the claim says any negative `n` returns all remaining
compressed bytes, but `read(-2)` on a fresh adapter over `[7,7,7]` returns
the empty byte string (the loop guard `len(buffer) < size` is false and
`buffer[:-2]` slices away everything), while the remaining stream
`[7,7,7,0]` is non-empty. -/
theorem C5_counterexample :
    (GzipStreamWrapper.read toyComp (-2) (GzipStreamWrapper.mk0 toyComp [7, 7, 7] 2)).1 = []
    ∧ streamRest toyComp (GzipStreamWrapper.mk0 toyComp [7, 7, 7] 2) = [7, 7, 7, 0]
    ∧ (GzipStreamWrapper.read toyComp (-2) (GzipStreamWrapper.mk0 toyComp [7, 7, 7] 2)).1
        ≠ streamRest toyComp (GzipStreamWrapper.mk0 toyComp [7, 7, 7] 2) :=
  ⟨by decide, by decide, by decide⟩

/-- C5 (amended): for every state and every call `read(n)`: if `n` is
non-negative the call returns at most `n` compressed bytes, and if `n` is
unspecified or equal to `-1` (not an arbitrary negative value) the call
returns all remaining compressed bytes of the stream, leaving nothing
pending. -/
theorem C5_read_contract {σ} (c : Compressor σ) (st : GzipStreamWrapper σ) (size : Int) :
    (0 ≤ size → ((GzipStreamWrapper.read c size st).1.length : Int) ≤ size)
    ∧ (GzipStreamWrapper.read c (-1) st).1 = streamRest c st
    ∧ streamRest c ((GzipStreamWrapper.read c (-1) st).2) = [] :=
  ⟨fun h => GzipStreamWrapper.read_length_le c h st,
   (GzipStreamWrapper.read_neg1 c st).1, (GzipStreamWrapper.read_neg1 c st).2⟩

theorem C5_read_contract_witness :
    ((GzipStreamWrapper.read toyComp 2 (GzipStreamWrapper.mk0 toyComp [9, 9, 9] 2)).1.length : Int) ≤ 2
    ∧ (GzipStreamWrapper.read toyComp (-1) (GzipStreamWrapper.mk0 toyComp [9, 9, 9] 2)).1
        = streamRest toyComp (GzipStreamWrapper.mk0 toyComp [9, 9, 9] 2) :=
  ⟨(C5_read_contract toyComp (GzipStreamWrapper.mk0 toyComp [9, 9, 9] 2) 2).1 (by decide),
   (C5_read_contract toyComp (GzipStreamWrapper.mk0 toyComp [9, 9, 9] 2) (-1)).2.1⟩

/-- C6 counterexample: over the read sequence `[0, -1, -1, -1]` on a fresh
adapter over `[5]`, the empty byte string is returned three times, and the
first empty result (`read(0)`) occurs while compressed data remains, so an
empty result is neither returned exactly once nor only at end-of-stream. -/
theorem C6_counterexample :
    (gzRunReads toyComp [0, -1, -1, -1] (GzipStreamWrapper.mk0 toyComp [5] 4)).1
        = [[], [5, 0], [], []]
    ∧ (gzRunReads toyComp [0, -1, -1, -1] (GzipStreamWrapper.mk0 toyComp [5] 4)).1.count [] = 3
    ∧ streamRest toyComp (GzipStreamWrapper.mk0 toyComp [5] 4) ≠ [] :=
  ⟨by decide, by decide, by decide⟩

/-- C6 (amended): for every read call with a positive requested size, the
result is empty exactly when the adapter has reached end-of-stream (source
exhausted, compressor flushed, buffer drained — i.e. the remaining stream is
empty); a reader that stops at its first empty result therefore sees the
empty result exactly once, but `read(0)` always returns empty and reads
after end-of-stream return empty again. -/
theorem C6_empty_only_at_eos {σ} (c : Compressor σ) (st : GzipStreamWrapper σ) (size : Int)
    (h : 1 ≤ size) :
    ((GzipStreamWrapper.read c size st).1 = [] ↔ streamRest c st = []) :=
  GzipStreamWrapper.read_empty_iff c h st

theorem C6_empty_only_at_eos_witness :
    ((GzipStreamWrapper.read toyComp 3 (GzipStreamWrapper.mk0 toyComp [2] 2)).1 = []
      ↔ streamRest toyComp (GzipStreamWrapper.mk0 toyComp [2] 2) = []) :=
  C6_empty_only_at_eos toyComp (GzipStreamWrapper.mk0 toyComp [2] 2) 3 (by decide)

/-! ### The Passthrough Stream Adapter (`RawGCSStream`) -/

/-- State of `shared.RawGCSStream` (fields `raw`, `buffer`, `finished`,
`bytes_written`; the pipeline variant lacks `bytes_written`).  The underlying
urllib3 stream `self.raw` is modelled by the list of results its successive
`read` calls produce: a chunk of bytes, or an exception; an exhausted stream
yields empty chunks. -/
structure RawGCSStream where
  rawChunks : List (Except String Bytes)
  buffer : Bytes
  finished : Bool
  bytes_written : Nat

/-- `RawGCSStream` state right after a successful `__init__`. -/
def RawGCSStream.mk0 (chunks : List (Except String Bytes)) : RawGCSStream :=
  { rawChunks := chunks, buffer := [], finished := false, bytes_written := 0 }

/-- `self.raw.read()` with no size: read the whole remainder, or raise the
first exception encountered. -/
def rawReadAll : List (Except String Bytes) → Except String Bytes
  | [] => Except.ok []
  | Except.ok ch :: rest =>
    match rawReadAll rest with
    | Except.ok r => Except.ok (ch ++ r)
    | Except.error e => Except.error e
  | Except.error e :: _ => Except.error e

/-- The `while len(self.buffer) < size and not self.finished` loop of
`RawGCSStream.read`.  Returns the state after the loop and, if a
`self.raw.read(65536)` call raised, the exception (buffer growth from the
earlier iterations persists).  `bound` only limits iterations; every
continuing iteration consumes one element of `rawChunks`, so any
`bound ≥ rawChunks.length` gives the loop's exact result. -/
def RawGCSStream.readLoop (size : Int) : Nat → RawGCSStream → RawGCSStream × Option String
  | bound, st =>
    if (st.buffer.length : Int) < size ∧ st.finished = false then
      match st.rawChunks with
      | [] => ({ st with finished := true }, none)
      | Except.error e :: rest => ({ st with rawChunks := rest }, some e)
      | Except.ok [] :: rest => ({ st with rawChunks := rest, finished := true }, none)
      | Except.ok (a :: ch) :: rest =>
        match bound with
        | 0 => ({ st with rawChunks := rest, buffer := st.buffer ++ (a :: ch) }, none)
        | bound' + 1 =>
          RawGCSStream.readLoop size bound'
            { st with rawChunks := rest, buffer := st.buffer ++ (a :: ch) }
    else (st, none)

/-- `RawGCSStream.read(size=-1)`.  The whole body is inside
`try/except Exception`: when a raw read raises, the exception is logged and
`b''` returned — state changes made before the exception persist. -/
def RawGCSStream.read (size : Int) (st : RawGCSStream) : Bytes × RawGCSStream :=
  if size = -1 then
    match rawReadAll st.rawChunks with
    | Except.ok all =>
      (st.buffer ++ all,
        { rawChunks := [], buffer := [], finished := true,
          bytes_written := st.bytes_written + (st.buffer ++ all).length })
    | Except.error _ => ([], { st with rawChunks := [] })
  else
    match RawGCSStream.readLoop size st.rawChunks.length st with
    | (st1, some _) => ([], st1)
    | (st1, none) =>
      (pySliceTo size st1.buffer,
        { st1 with buffer := pySliceFrom size st1.buffer,
                   bytes_written := st1.bytes_written + (pySliceTo size st1.buffer).length })

/-- Perform a sequence of `read` calls on a `RawGCSStream`, collecting the
returned byte strings. -/
def rawRunReads : List Int → RawGCSStream → List Bytes × RawGCSStream
  | [], st => ([], st)
  | s :: rest, st =>
    let r := RawGCSStream.read s st
    let rr := rawRunReads rest r.2
    (r.1 :: rr.1, rr.2)

/-- The raw-stream loop never touches `bytes_written`. -/
theorem RawGCSStream.readLoop_bw (size : Int) :
    ∀ b (st : RawGCSStream),
      ((RawGCSStream.readLoop size b st).1).bytes_written = st.bytes_written := by
  intro b
  induction b with
  | zero =>
    intro st
    rw [RawGCSStream.readLoop.eq_1]
    split
    · split <;> rfl
    · rfl
  | succ b ih =>
    intro st
    rw [RawGCSStream.readLoop.eq_1]
    split
    · split
      · rfl
      · rfl
      · rfl
      · exact ih _
    · rfl

/-- `bytes_written` grows by exactly the number of bytes each raw `read`
returns (an exception path returns `b''` and leaves the counter alone). -/
theorem RawGCSStream.read_bw (size : Int) (st : RawGCSStream) :
    ((RawGCSStream.read size st).2).bytes_written
      = st.bytes_written + ((RawGCSStream.read size st).1).length := by
  rw [RawGCSStream.read]
  by_cases hne : size = -1
  · rw [if_pos hne]
    split
    · simp
    · simp
  · rw [if_neg hne]
    split
    · next st1 e heq =>
      have h := RawGCSStream.readLoop_bw size st.rawChunks.length st
      rw [heq] at h
      simpa using h
    · next st1 heq =>
      have h := RawGCSStream.readLoop_bw size st.rawChunks.length st
      rw [heq] at h
      simp at h
      simp [h]

/-- Over any sequence of raw `read` calls, `bytes_written` accumulates the
total length of the returned byte strings. -/
theorem rawRunReads_bytes_written :
    ∀ (sizes : List Int) (st : RawGCSStream),
      ((rawRunReads sizes st).2).bytes_written
        = st.bytes_written + sumLens (rawRunReads sizes st).1 := by
  intro sizes
  induction sizes with
  | nil => intro st; simp [rawRunReads, sumLens]
  | cons s rest ih =>
    intro st
    simp only [rawRunReads]
    rw [ih, RawGCSStream.read_bw]
    simp [sumLens]
    omega

/-! ### The Transfer Engine (`transfer_blob_to_s3`) -/

/-- Result of the `s3_client.head_object` call inside
`check_s3_object_exists`: it either succeeds (the object is present), raises
a `ClientError` carrying an error code, or raises some other exception. -/
inductive HeadOutcome
  | success
  | clientError (code : String)
  | fail (msg : String)
deriving DecidableEq

/-- `shared.check_s3_object_exists`: `True` when `head_object` succeeds,
`False` on a `ClientError` with code `'404'`; any other `ClientError` is
re-raised, and a non-`ClientError` exception is not caught at all. -/
def check_s3_object_exists : HeadOutcome → Except String Bool
  | HeadOutcome.success => Except.ok true
  | HeadOutcome.clientError code =>
    if code = "404" then Except.ok false else Except.error ("ClientError " ++ code)
  | HeadOutcome.fail msg => Except.error msg

/-- GCS blob metadata and content as `transfer_blob_to_s3` sees them
(`blob.name`, `blob.bucket.name`, `blob.content_type`,
`blob.content_encoding`, `blob.size`, and the bytes `blob.open('rb')`
serves). -/
structure Blob where
  name : String
  bucketName : String
  content_type : Option String
  content_encoding : Option String
  size : Option Nat
  data : Bytes

/-- Step 2 of the engine, translated from
`if object_name.endswith('.jsonl') or object_name.endswith('.ndjson'): ...`:
newline-delimited JSON extensions map to `application/x-ndjson`, otherwise
the blob's recorded content type is used, defaulting to
`application/octet-stream`. -/
def resolveContentType (objectName : String) (blobContentType : Option String) : String :=
  if objectName.endsWith ".jsonl" || objectName.endsWith ".ndjson" then "application/x-ndjson"
  else blobContentType.getD "application/octet-stream"

/-- `was_gzipped = gcs_content_encoding == 'gzip' if gcs_content_encoding
else False`: an absent (or falsy empty) encoding gives `False`; only the
exact string `gzip` selects the passthrough branch. -/
def wasGzipped : Option String → Bool
  | none => false
  | some e => decide (e = "gzip")

/-- The result dict of the shared-variant `transfer_blob_to_s3`
(`{'status': 'already_exists', ...}` or `{'status': 'success', ...}`);
`None` is modelled as `Option.none` around this type. -/
inductive Outcome
  | alreadyExists (object : String)
  | success (object : String) (gzip_input : Bool) (input_size : Option Nat)
      (output_size : Nat) (source_bucket : String) (target_bucket : String)
deriving DecidableEq

/-- Observable actions of one transfer, recorded in execution order: a
successfully returned existence probe with its result, a completed
(reported-successful) upload, and each call to `blob.delete()`. -/
inductive Ev
  | probed (present : Bool)
  | uploadDone
  | deleteCalled
deriving DecidableEq

/-- Environment of one `transfer_blob_to_s3` call: the blob, and the outcome
of each external interaction the engine performs.  `uploadReads` is the
sequence of sizes `upload_fileobj` requests from the stream it is given
(boto3 chooses these); `s3Result` tells whether the S3 upload itself
succeeds.  The two `blob.delete()` call sites get independent outcomes. -/
structure TransferEnv where
  blob : Blob
  headOutcome : HeadOutcome
  deleteExisting : Except String Unit
  deleteAfterUpload : Except String Unit
  rawInit : Except String Unit
  rawChunks : List (Except String Bytes)
  openResult : Except String Unit
  uploadReads : List Int
  s3Result : Except String Unit

/-- Steps 1–5 of `transfer_blob_to_s3` — the body of its `try` — returning
the outcome or the first exception raised, together with the trace of
observable actions in order.  The content type computed in step 2
(`resolveContentType`) and the provenance metadata only feed the upload's
`ExtraArgs` and do not influence control flow.  In the passthrough branch the
upload pulls from a `RawGCSStream` over `env.rawChunks`; in the compressing
branch it pulls from a `GzipStreamWrapper` (chunk size 65536) over the
blob's bytes; `output_size` is the adapter's `bytes_written` afterwards. -/
def transferBody {σ} (c : Compressor σ) (env : TransferEnv) (target_bucket : String) :
    Except String Outcome × List Ev :=
  match check_s3_object_exists env.headOutcome with
  | Except.error e => (Except.error e, [])
  | Except.ok true =>
    match env.deleteExisting with
    | Except.ok _ => (Except.ok (Outcome.alreadyExists env.blob.name),
        [Ev.probed true, Ev.deleteCalled])
    | Except.error e => (Except.error e, [Ev.probed true, Ev.deleteCalled])
  | Except.ok false =>
    if wasGzipped env.blob.content_encoding then
      match env.rawInit with
      | Except.error e => (Except.error e, [Ev.probed false])
      | Except.ok _ =>
        match env.s3Result with
        | Except.error e => (Except.error e, [Ev.probed false])
        | Except.ok _ =>
          match env.deleteAfterUpload with
          | Except.error e => (Except.error e,
              [Ev.probed false, Ev.uploadDone, Ev.deleteCalled])
          | Except.ok _ =>
            (Except.ok (Outcome.success env.blob.name true env.blob.size
                ((rawRunReads env.uploadReads (RawGCSStream.mk0 env.rawChunks)).2).bytes_written
                env.blob.bucketName target_bucket),
              [Ev.probed false, Ev.uploadDone, Ev.deleteCalled])
    else
      match env.openResult with
      | Except.error e => (Except.error e, [Ev.probed false])
      | Except.ok _ =>
        match env.s3Result with
        | Except.error e => (Except.error e, [Ev.probed false])
        | Except.ok _ =>
          match env.deleteAfterUpload with
          | Except.error e => (Except.error e,
              [Ev.probed false, Ev.uploadDone, Ev.deleteCalled])
          | Except.ok _ =>
            (Except.ok (Outcome.success env.blob.name false env.blob.size
                ((gzRunReads c env.uploadReads
                    (GzipStreamWrapper.mk0 c env.blob.data 65536)).2).bytes_written
                env.blob.bucketName target_bucket),
              [Ev.probed false, Ev.uploadDone, Ev.deleteCalled])

/-- `transfer_blob_to_s3` of the shared-gcp-resources variant: the
`try/except Exception` around the body; every exception is logged and `None`
is returned. -/
def transfer_blob_to_s3 {σ} (c : Compressor σ) (env : TransferEnv) (target_bucket : String) :
    Option Outcome × List Ev :=
  match transferBody c env target_bucket with
  | (Except.ok o, tr) => (some o, tr)
  | (Except.error _, tr) => (none, tr)

/-- `transfer_blob_to_s3` of the gcp-to-s3-pipeline variant: identical
control flow and external actions (its stream classes merely lack the
`bytes_written` accounting); it returns `True` for the already-exists and
success paths and `False` when an exception was caught. -/
def transfer_blob_to_s3_pl {σ} (c : Compressor σ) (env : TransferEnv) (target_bucket : String) :
    Bool × List Ev :=
  match transferBody c env target_bucket with
  | (Except.ok _, tr) => (true, tr)
  | (Except.error _, tr) => (false, tr)

/-- Trace discipline check: scanning left to right, every `deleteCalled`
must be preceded by a positive probe result or a completed upload. -/
def confirmedDelete : Bool → List Ev → Bool
  | _, [] => true
  | _, Ev.probed true :: tr => confirmedDelete true tr
  | _, Ev.uploadDone :: tr => confirmedDelete true tr
  | ok, Ev.deleteCalled :: tr => ok && confirmedDelete ok tr
  | ok, Ev.probed false :: tr => confirmedDelete ok tr

/-! ### Claims about the Transfer Engine -/

/-- C1: for every transfer invocation (any blob metadata and content, any
store behaviour, any target bucket), `blob.delete()` is called if and only
if the destination existence probe returned present or the streaming upload
completed successfully; scanning the action trace, no delete call precedes
one of these two confirmations, and in particular after a failed upload
(probe said absent, S3 upload raised) no delete is called, so the source
object still exists. -/
theorem C1_delete_iff_confirmed {σ} (c : Compressor σ) (env : TransferEnv) (tb : String) :
    (Ev.deleteCalled ∈ (transfer_blob_to_s3 c env tb).2
      ↔ (Ev.probed true ∈ (transfer_blob_to_s3 c env tb).2
        ∨ Ev.uploadDone ∈ (transfer_blob_to_s3 c env tb).2))
    ∧ confirmedDelete false (transfer_blob_to_s3 c env tb).2 = true
    ∧ (∀ e, check_s3_object_exists env.headOutcome = Except.ok false →
        env.s3Result = Except.error e →
        Ev.deleteCalled ∉ (transfer_blob_to_s3 c env tb).2) := by
  obtain ⟨blob, head, dEx, dUp, rInit, rChunks, openR, upReads, s3R⟩ := env
  cases head with
  | success =>
    cases dEx with
    | ok u => simp [transfer_blob_to_s3, transferBody, check_s3_object_exists, confirmedDelete]
    | error e0 =>
      simp [transfer_blob_to_s3, transferBody, check_s3_object_exists, confirmedDelete]
  | fail m => simp [transfer_blob_to_s3, transferBody, check_s3_object_exists, confirmedDelete]
  | clientError code =>
    by_cases hc : code = "404"
    · subst hc
      cases hgz : wasGzipped blob.content_encoding with
      | true =>
        cases rInit with
        | error e0 =>
          simp [transfer_blob_to_s3, transferBody, check_s3_object_exists, hgz, confirmedDelete]
        | ok u =>
          cases s3R with
          | error e0 =>
            simp [transfer_blob_to_s3, transferBody, check_s3_object_exists, hgz, confirmedDelete]
          | ok u2 =>
            cases dUp with
            | error e0 =>
              simp [transfer_blob_to_s3, transferBody, check_s3_object_exists, hgz,
                confirmedDelete]
            | ok u3 =>
              simp [transfer_blob_to_s3, transferBody, check_s3_object_exists, hgz,
                confirmedDelete]
      | false =>
        cases openR with
        | error e0 =>
          simp [transfer_blob_to_s3, transferBody, check_s3_object_exists, hgz, confirmedDelete]
        | ok u =>
          cases s3R with
          | error e0 =>
            simp [transfer_blob_to_s3, transferBody, check_s3_object_exists, hgz, confirmedDelete]
          | ok u2 =>
            cases dUp with
            | error e0 =>
              simp [transfer_blob_to_s3, transferBody, check_s3_object_exists, hgz,
                confirmedDelete]
            | ok u3 =>
              simp [transfer_blob_to_s3, transferBody, check_s3_object_exists, hgz,
                confirmedDelete]
    · simp [transfer_blob_to_s3, transferBody, check_s3_object_exists, hc, confirmedDelete]

/-- C2: whenever any step of the engine raises (the body produces an
exception), the `except Exception` handler converts it into the failure
value — `None` in the shared variant and `False` in the pipeline variant —
so the exception never reaches the caller and a batch caller can continue. -/
theorem C2_engine_never_raises {σ} (c : Compressor σ) (env : TransferEnv) (tb : String)
    (e : String) (h : (transferBody c env tb).1 = Except.error e) :
    (transfer_blob_to_s3 c env tb).1 = none
    ∧ (transfer_blob_to_s3_pl c env tb).1 = false := by
  rcases hb : transferBody c env tb with ⟨r, tr⟩
  rw [hb] at h
  cases r with
  | ok o => simp at h
  | error e2 => simp [transfer_blob_to_s3, transfer_blob_to_s3_pl, hb]

/-- A transfer environment whose very first step (the existence probe)
raises a non-`ClientError` exception. -/
def envHeadFail : TransferEnv :=
  { blob := { name := "file.jsonl", bucketName := "staging", content_type := none,
              content_encoding := none, size := some 3, data := [1, 2, 3] }
    headOutcome := HeadOutcome.fail "connection refused"
    deleteExisting := Except.ok ()
    deleteAfterUpload := Except.ok ()
    rawInit := Except.ok ()
    rawChunks := []
    openResult := Except.ok ()
    uploadReads := [-1]
    s3Result := Except.ok () }

theorem C2_engine_never_raises_witness :
    (transfer_blob_to_s3 toyComp envHeadFail "tgt").1 = none
    ∧ (transfer_blob_to_s3_pl toyComp envHeadFail "tgt").1 = false :=
  C2_engine_never_raises toyComp envHeadFail "tgt" "connection refused" rfl

/-- A transfer of a gzip-encoded source object whose raw content stream
fails mid-read (one chunk arrives, then the connection breaks). -/
def envRawMidstreamError : TransferEnv :=
  { blob := { name := "log.gz", bucketName := "staging", content_type := none,
              content_encoding := some "gzip", size := some 3, data := [1, 2, 3] }
    headOutcome := HeadOutcome.clientError "404"
    deleteExisting := Except.ok ()
    deleteAfterUpload := Except.ok ()
    rawInit := Except.ok ()
    rawChunks := [Except.ok [1, 2, 3], Except.error "connection reset"]
    openResult := Except.ok ()
    uploadReads := [5]
    s3Result := Except.ok () }

/-- C9 (code bug, demonstration): the source object's raw read fails
mid-stream (`envRawMidstreamError.rawChunks` contains an exception), yet the
engine reports `success` and calls `blob.delete()`: `RawGCSStream.read`
catches the exception and returns `b''`, which `upload_fileobj` takes as a
normal end-of-stream, so a truncated (here: empty, `output_size = 0`) object
is uploaded, the outcome is not `Failure`, and the source object is deleted.
The claim (and spec §4.3) require a `Failure` outcome with the source
retained. -/
theorem C9_raw_midstream_error_reports_success :
    transfer_blob_to_s3 toyComp envRawMidstreamError "tgt"
      = (some (Outcome.success "log.gz" true (some 3) 0 "staging" "tgt"),
         [Ev.probed false, Ev.uploadDone, Ev.deleteCalled])
    ∧ Ev.deleteCalled ∈ (transfer_blob_to_s3 toyComp envRawMidstreamError "tgt").2
    ∧ (RawGCSStream.read 5 (RawGCSStream.mk0 envRawMidstreamError.rawChunks)).1 = [] :=
  ⟨rfl, by decide, rfl⟩

/-- For a success outcome, the byte strings the upload pulled from the
selected stream adapter, per branch. -/
def uploadOutputs {σ} (c : Compressor σ) (env : TransferEnv) : List Bytes :=
  if wasGzipped env.blob.content_encoding then
    (rawRunReads env.uploadReads (RawGCSStream.mk0 env.rawChunks)).1
  else
    (gzRunReads c env.uploadReads (GzipStreamWrapper.mk0 c env.blob.data 65536)).1

/-- C10: in the shared-gcp-resources variant, (a) for the Compressing
Stream Adapter and (b) for the Passthrough Stream Adapter, over every
sequence of `read` calls from a fresh adapter the `bytes_written` counter
equals the cumulative length of all returned byte strings; consequently
(c) the `output_size` field of every success outcome of
`transfer_blob_to_s3` equals the total number of bytes the upload consumed
from its adapter. -/
theorem C10_bytes_written_accounting {σ} (c : Compressor σ) :
    (∀ (sizes : List Int) (B : Bytes) (cs : Nat),
      ((gzRunReads c sizes (GzipStreamWrapper.mk0 c B cs)).2).bytes_written
        = sumLens (gzRunReads c sizes (GzipStreamWrapper.mk0 c B cs)).1)
    ∧ (∀ (sizes : List Int) (chunks : List (Except String Bytes)),
      ((rawRunReads sizes (RawGCSStream.mk0 chunks)).2).bytes_written
        = sumLens (rawRunReads sizes (RawGCSStream.mk0 chunks)).1)
    ∧ (∀ (env : TransferEnv) (tb nm : String) (gz : Bool) (isz : Option Nat) (osz : Nat)
        (sb tb2 : String),
      (transfer_blob_to_s3 c env tb).1 = some (Outcome.success nm gz isz osz sb tb2) →
      osz = sumLens (uploadOutputs c env)) := by
  refine ⟨?_, ?_, ?_⟩
  · intro sizes B cs
    rw [gzRunReads_bytes_written]
    simp [GzipStreamWrapper.mk0]
  · intro sizes chunks
    rw [rawRunReads_bytes_written]
    simp [RawGCSStream.mk0]
  · intro env tb nm gz isz osz sb tb2 h
    obtain ⟨blob, head, dEx, dUp, rInit, rChunks, openR, upReads, s3R⟩ := env
    cases head with
    | success =>
      cases dEx <;> simp [transfer_blob_to_s3, transferBody, check_s3_object_exists] at h
    | fail m => simp [transfer_blob_to_s3, transferBody, check_s3_object_exists] at h
    | clientError code =>
      by_cases hc : code = "404"
      · subst hc
        cases hgz : wasGzipped blob.content_encoding with
        | true =>
          cases rInit with
          | error e0 =>
            simp [transfer_blob_to_s3, transferBody, check_s3_object_exists, hgz] at h
          | ok u =>
            cases s3R with
            | error e0 =>
              simp [transfer_blob_to_s3, transferBody, check_s3_object_exists, hgz] at h
            | ok u2 =>
              cases dUp with
              | error e0 =>
                simp [transfer_blob_to_s3, transferBody, check_s3_object_exists, hgz] at h
              | ok u3 =>
                simp [transfer_blob_to_s3, transferBody, check_s3_object_exists, hgz] at h
                rw [← h.2.2.2.1]
                simp [uploadOutputs, hgz, rawRunReads_bytes_written, RawGCSStream.mk0]
        | false =>
          cases openR with
          | error e0 =>
            simp [transfer_blob_to_s3, transferBody, check_s3_object_exists, hgz] at h
          | ok u =>
            cases s3R with
            | error e0 =>
              simp [transfer_blob_to_s3, transferBody, check_s3_object_exists, hgz] at h
            | ok u2 =>
              cases dUp with
              | error e0 =>
                simp [transfer_blob_to_s3, transferBody, check_s3_object_exists, hgz] at h
              | ok u3 =>
                simp [transfer_blob_to_s3, transferBody, check_s3_object_exists, hgz] at h
                rw [← h.2.2.2.1]
                simp [uploadOutputs, hgz, gzRunReads_bytes_written, GzipStreamWrapper.mk0]
      · simp [transfer_blob_to_s3, transferBody, check_s3_object_exists, hc] at h

/-- A plain transfer that reaches the success outcome through the
compressing branch (probe: 404, upload reads everything in one call). -/
def envPlainSuccess : TransferEnv :=
  { blob := { name := "notes.txt", bucketName := "staging", content_type := some "text/plain",
              content_encoding := none, size := some 2, data := [9, 9] }
    headOutcome := HeadOutcome.clientError "404"
    deleteExisting := Except.ok ()
    deleteAfterUpload := Except.ok ()
    rawInit := Except.ok ()
    rawChunks := []
    openResult := Except.ok ()
    uploadReads := [-1]
    s3Result := Except.ok () }

theorem C10_bytes_written_accounting_witness :
    (transfer_blob_to_s3 toyComp envPlainSuccess "tgt").1
      = some (Outcome.success "notes.txt" false (some 2) 3 "staging" "tgt")
    ∧ 3 = sumLens (uploadOutputs toyComp envPlainSuccess) :=
  ⟨rfl, (C10_bytes_written_accounting toyComp).2.2 envPlainSuccess "tgt" "notes.txt" false
    (some 2) 3 "staging" "tgt" rfl⟩

/-! ### The Event Handler (`transfer_function.transfer_to_s3`) -/

/-- Observable actions of one Event Handler invocation: the wrong-bucket
rejection, the metadata refresh (`blob.reload()`), the credential exchange
(`get_aws_credentials()`), the invocation of the transfer engine, and the
engine's own actions. -/
inductive HEv
  | rejectedWrongBucket
  | reloadedMetadata
  | gotCredentials
  | calledTransfer
  | engine (e : Ev)
deriving DecidableEq

/-- Environment of one Event Handler invocation: the CloudEvent's bucket
and object name, the configuration (`os.environ.get('TEMP_BUCKET')` and the
raising lookups `os.environ['AWS_REGION']`, `os.environ['TARGET_BUCKET']`,
each `none` when unset), the outcomes of the metadata refresh and of the
credential exchange, and the environment the engine call will see. -/
structure EventEnv where
  eventBucket : String
  eventName : String
  tempBucket : Option String
  awsRegion : Option String
  targetBucket : Option String
  reloadResult : Except String Unit
  credsResult : Except String Unit
  tEnv : TransferEnv

/-- `transfer_to_s3` of the shared-gcp-resources variant.  The bucket guard
runs before the `try`; inside the `try`, the blob is reloaded, credentials
exchanged, the S3 client built (reading `AWS_REGION`), `TARGET_BUCKET`
read, and the engine invoked once; every exception is caught and logged,
never re-raised.  The returned trace lists the actions attempted, in
order. -/
def transfer_to_s3 {σ} (c : Compressor σ) (env : EventEnv) : List HEv :=
  if env.tempBucket ≠ some env.eventBucket then [HEv.rejectedWrongBucket]
  else
    match env.reloadResult with
    | Except.error _ => [HEv.reloadedMetadata]
    | Except.ok _ =>
      match env.credsResult with
      | Except.error _ => [HEv.reloadedMetadata, HEv.gotCredentials]
      | Except.ok _ =>
        match env.awsRegion with
        | none => [HEv.reloadedMetadata, HEv.gotCredentials]
        | some _ =>
          match env.targetBucket with
          | none => [HEv.reloadedMetadata, HEv.gotCredentials]
          | some tgt =>
            HEv.reloadedMetadata :: HEv.gotCredentials :: HEv.calledTransfer ::
              ((transfer_blob_to_s3 c env.tEnv tgt).2.map HEv.engine)

/-- `transfer_to_s3` of the gcp-to-s3-pipeline variant: the same steps but
with no bucket guard at all — every creation event is processed. -/
def transfer_to_s3_pl {σ} (c : Compressor σ) (env : EventEnv) : List HEv :=
  match env.reloadResult with
  | Except.error _ => [HEv.reloadedMetadata]
  | Except.ok _ =>
    match env.credsResult with
    | Except.error _ => [HEv.reloadedMetadata, HEv.gotCredentials]
    | Except.ok _ =>
      match env.awsRegion with
      | none => [HEv.reloadedMetadata, HEv.gotCredentials]
      | some _ =>
        match env.targetBucket with
        | none => [HEv.reloadedMetadata, HEv.gotCredentials]
        | some tgt =>
          HEv.reloadedMetadata :: HEv.gotCredentials :: HEv.calledTransfer ::
            ((transfer_blob_to_s3 c env.tEnv tgt).2.map HEv.engine)

/-- An Event Handler invocation whose creation event names a bucket
different from the configured staging bucket, with every external step set
up to succeed. -/
def envWrongBucket : EventEnv :=
  { eventBucket := "other-bucket"
    eventName := "obj.txt"
    tempBucket := some "staging-bucket"
    awsRegion := some "us-east-1"
    targetBucket := some "dest"
    reloadResult := Except.ok ()
    credsResult := Except.ok ()
    tEnv :=
      { blob := { name := "obj.txt", bucketName := "other-bucket", content_type := none,
                  content_encoding := none, size := some 1, data := [1] }
        headOutcome := HeadOutcome.success
        deleteExisting := Except.ok ()
        deleteAfterUpload := Except.ok ()
        rawInit := Except.ok ()
        rawChunks := []
        openResult := Except.ok ()
        uploadReads := [-1]
        s3Result := Except.ok () } }

/-- C7 counterexample: the gcp-to-s3-pipeline variant of the Event Handler
has no bucket check; for a creation event whose bucket (`other-bucket`)
differs from the configured staging bucket (`staging-bucket`) it still
refreshes metadata, exchanges credentials, invokes the transfer engine,
and here even deletes the event's object — refuting the claim for that
variant. -/
theorem C7_counterexample :
    envWrongBucket.tempBucket = some "staging-bucket"
    ∧ envWrongBucket.eventBucket = "other-bucket"
    ∧ transfer_to_s3_pl toyComp envWrongBucket
        = [HEv.reloadedMetadata, HEv.gotCredentials, HEv.calledTransfer,
           HEv.engine (Ev.probed true), HEv.engine Ev.deleteCalled]
    ∧ HEv.calledTransfer ∈ transfer_to_s3_pl toyComp envWrongBucket
    ∧ HEv.engine Ev.deleteCalled ∈ transfer_to_s3_pl toyComp envWrongBucket :=
  ⟨rfl, rfl, rfl, by decide, by decide⟩

/-- C7 (amended): in the shared-gcp-resources variant, for every creation
event whose bucket differs from the configured staging bucket (also when no
staging bucket is configured), the Event Handler discards the event: its
only action is the rejection log — no metadata refresh, no credential
exchange, no transfer engine call, and no engine action (in particular no
deletion); the gcp-to-s3-pipeline variant performs no such check. -/
theorem C7_wrong_bucket_discarded {σ} (c : Compressor σ) (env : EventEnv)
    (h : env.tempBucket ≠ some env.eventBucket) :
    transfer_to_s3 c env = [HEv.rejectedWrongBucket]
    ∧ HEv.calledTransfer ∉ transfer_to_s3 c env
    ∧ HEv.reloadedMetadata ∉ transfer_to_s3 c env
    ∧ HEv.gotCredentials ∉ transfer_to_s3 c env
    ∧ ∀ e, HEv.engine e ∉ transfer_to_s3 c env := by
  have h1 : transfer_to_s3 c env = [HEv.rejectedWrongBucket] := by
    rw [transfer_to_s3, if_pos h]
  refine ⟨h1, ?_, ?_, ?_, ?_⟩ <;> simp [h1]

theorem C7_wrong_bucket_discarded_witness :
    transfer_to_s3 toyComp envWrongBucket = [HEv.rejectedWrongBucket]
    ∧ HEv.calledTransfer ∉ transfer_to_s3 toyComp envWrongBucket
    ∧ HEv.engine Ev.deleteCalled ∉ transfer_to_s3 toyComp envWrongBucket := by
  have h := C7_wrong_bucket_discarded toyComp envWrongBucket (by decide)
  exact ⟨h.1, h.2.1, h.2.2.2.2 Ev.deleteCalled⟩

/-! ### The Sweep Handler (`cleanup_function.cleanup_stale_files`) -/

/-- The summary dict `cleanup_stale_files` returns with HTTP status 200;
`cutoff_time` is modelled as the numeric cutoff timestamp. -/
structure SweepSummary where
  total_files : Nat
  stale_files : Nat
  success : Nat
  failures : Nat
  cutoff_time : Int
deriving DecidableEq

/-- Environment of one Sweep Handler invocation: the configuration
(`os.environ` entries, `none` when unset — a missing key raises `KeyError`,
caught by the top-level handler and turned into a 500), the parsed age
threshold, the current time, the credential exchange outcome, and the
listed blobs (creation timestamp, and the transfer environment each one's
engine call will see), in listing order.  Timestamps are in minutes, so the
cutoff is `now - ageThresholdMinutes`. -/
structure SweepEnv where
  tempBucket : Option String
  targetBucket : Option String
  awsRegion : Option String
  ageThresholdMinutes : Int
  now : Int
  credsResult : Except String Unit
  blobs : List (Int × TransferEnv)

/-- The `for blob in bucket.list_blobs()` loop of `cleanup_stale_files`:
count every object, and for each one strictly older than the cutoff invoke
the transfer engine and count its success (truthy result) or failure.
Returns (total, stale, successes, failures, keys the engine was invoked
on). -/
def sweepLoop {σ} (c : Compressor σ) (target : String) (cutoff : Int) :
    List (Int × TransferEnv) → Nat × Nat × Nat × Nat × List String
  | [] => (0, 0, 0, 0, [])
  | (t, te) :: rest =>
    let r := sweepLoop c target cutoff rest
    if t < cutoff then
      match (transfer_blob_to_s3 c te target).1 with
      | some _ => (r.1 + 1, r.2.1 + 1, r.2.2.1 + 1, r.2.2.2.1, te.blob.name :: r.2.2.2.2)
      | none => (r.1 + 1, r.2.1 + 1, r.2.2.1, r.2.2.2.1 + 1, te.blob.name :: r.2.2.2.2)
    else (r.1 + 1, r.2.1, r.2.2.1, r.2.2.2.1, r.2.2.2.2)

/-- `cleanup_stale_files`: read configuration, compute the cutoff, exchange
credentials, build the S3 client, run the loop, and return the summary;
any exception in that sequence is caught and returned as an error payload
with status 500 (`Except.error`). -/
def cleanup_stale_files {σ} (c : Compressor σ) (env : SweepEnv) :
    Except String SweepSummary :=
  match env.tempBucket with
  | none => Except.error "KeyError: TEMP_BUCKET"
  | some _ =>
    match env.targetBucket with
    | none => Except.error "KeyError: TARGET_BUCKET"
    | some target =>
      match env.credsResult with
      | Except.error e => Except.error e
      | Except.ok _ =>
        match env.awsRegion with
        | none => Except.error "KeyError: AWS_REGION"
        | some _ =>
          match sweepLoop c target (env.now - env.ageThresholdMinutes) env.blobs with
          | (tot, stale, succ, fails, _) =>
            Except.ok { total_files := tot, stale_files := stale, success := succ,
                        failures := fails,
                        cutoff_time := env.now - env.ageThresholdMinutes }

/-- Closed form of the sweep loop's accumulators. -/
theorem sweepLoop_spec {σ} (c : Compressor σ) (target : String) (cutoff : Int) :
    ∀ l : List (Int × TransferEnv),
      sweepLoop c target cutoff l
        = (l.length,
           (l.filter (fun b => decide (b.1 < cutoff))).length,
           (l.filter (fun b => decide (b.1 < cutoff)
              && ((transfer_blob_to_s3 c b.2 target).1).isSome)).length,
           (l.filter (fun b => decide (b.1 < cutoff)
              && !((transfer_blob_to_s3 c b.2 target).1).isSome)).length,
           (l.filter (fun b => decide (b.1 < cutoff))).map (fun b => b.2.blob.name)) := by
  intro l
  induction l with
  | nil => rfl
  | cons hd rest ih =>
    obtain ⟨t, te⟩ := hd
    simp only [sweepLoop, ih]
    by_cases ht : t < cutoff
    · cases hres : (transfer_blob_to_s3 c te target).1 with
      | some o => simp [List.filter_cons, ht, hres]
      | none => simp [List.filter_cons, ht, hres]
    · simp [List.filter_cons, ht]

/-- Splitting a filter on a decidable refinement preserves the count. -/
theorem length_filter_and_split {α} (p q : α → Bool) :
    ∀ l : List α,
      (l.filter (fun x => p x && q x)).length + (l.filter (fun x => p x && !q x)).length
        = (l.filter p).length := by
  intro l
  induction l with
  | nil => rfl
  | cons a l ih =>
    simp only [List.filter_cons]
    cases hp : p a <;> cases hq : q a <;> simp [hp, hq, ih] <;> omega

/-- C8: whenever the configuration is present and the credential exchange
succeeds, the Sweep Handler returns a 200 summary in which `total_files` is
the number of listed objects, `stale_files` counts exactly the objects whose
creation timestamp is strictly older than `now - ageThresholdMinutes`,
`success + failures = stale_files`, and the transfer engine is invoked
exactly on those stale objects, in listing order. -/
theorem C8_sweep_summary {σ} (c : Compressor σ) (env : SweepEnv) (tb0 tgt reg : String)
    (h1 : env.tempBucket = some tb0) (h2 : env.targetBucket = some tgt)
    (h3 : env.credsResult = Except.ok ()) (h4 : env.awsRegion = some reg) :
    cleanup_stale_files c env
      = Except.ok
          { total_files := env.blobs.length,
            stale_files := (env.blobs.filter
              (fun b => decide (b.1 < env.now - env.ageThresholdMinutes))).length,
            success := (env.blobs.filter (fun b =>
              decide (b.1 < env.now - env.ageThresholdMinutes)
                && ((transfer_blob_to_s3 c b.2 tgt).1).isSome)).length,
            failures := (env.blobs.filter (fun b =>
              decide (b.1 < env.now - env.ageThresholdMinutes)
                && !((transfer_blob_to_s3 c b.2 tgt).1).isSome)).length,
            cutoff_time := env.now - env.ageThresholdMinutes }
    ∧ (env.blobs.filter (fun b =>
          decide (b.1 < env.now - env.ageThresholdMinutes)
            && ((transfer_blob_to_s3 c b.2 tgt).1).isSome)).length
        + (env.blobs.filter (fun b =>
            decide (b.1 < env.now - env.ageThresholdMinutes)
              && !((transfer_blob_to_s3 c b.2 tgt).1).isSome)).length
        = (env.blobs.filter
            (fun b => decide (b.1 < env.now - env.ageThresholdMinutes))).length
    ∧ (sweepLoop c tgt (env.now - env.ageThresholdMinutes) env.blobs).2.2.2.2
        = (env.blobs.filter
            (fun b => decide (b.1 < env.now - env.ageThresholdMinutes))).map
              (fun b => b.2.blob.name) := by
  have hspec := sweepLoop_spec c tgt (env.now - env.ageThresholdMinutes) env.blobs
  refine ⟨?_, length_filter_and_split _ _ env.blobs, by rw [hspec]⟩
  rw [cleanup_stale_files, h1, h2, h3, h4]
  simp [hspec]

/-- A sweep over two objects, one created 30 minutes ago and one created 90
minutes ago, with a 60-minute threshold (the spec's staleness example). -/
def envSweep : SweepEnv :=
  { tempBucket := some "staging"
    targetBucket := some "dest"
    awsRegion := some "us-east-1"
    ageThresholdMinutes := 60
    now := 100
    credsResult := Except.ok ()
    blobs := [(70, envPlainSuccess), (10, envPlainSuccess)] }

theorem C8_sweep_summary_witness :
    cleanup_stale_files toyComp envSweep
      = Except.ok { total_files := 2, stale_files := 1, success := 1, failures := 0,
                    cutoff_time := 40 } := by
  have h := C8_sweep_summary toyComp envSweep "staging" "dest" "us-east-1" rfl rfl rfl rfl
  exact h.1.trans (by rfl)

/-- A transfer whose destination probe reports absent and whose S3 upload
fails. -/
def envUploadFail : TransferEnv :=
  { blob := { name := "data.bin", bucketName := "staging", content_type := none,
              content_encoding := none, size := some 2, data := [4, 2] }
    headOutcome := HeadOutcome.clientError "404"
    deleteExisting := Except.ok ()
    deleteAfterUpload := Except.ok ()
    rawInit := Except.ok ()
    rawChunks := []
    openResult := Except.ok ()
    uploadReads := [-1]
    s3Result := Except.error "upload timeout" }

theorem C1_delete_iff_confirmed_witness :
    Ev.deleteCalled ∉ (transfer_blob_to_s3 toyComp envUploadFail "tgt").2 := by
  have h := C1_delete_iff_confirmed toyComp envUploadFail "tgt"
  exact h.2.2 "upload timeout" rfl rfl
